import Mathlib

/-!
Verification of the Auction-It bidding engine.

This file gives a shallow embedding of the auction data model and the
bid/cancel operations of the Auction-It backend (the Mongoose `Auction`,
`Bid` and `Item` models, the `placeBid` controller of the bid controller,
and the `cancelAuction` controller), and proves properties of the
admission rules, the price monotonicity invariant, the commit behaviour
and the error responses.

Currency amounts are modelled as rationals, times as integer timestamps
(milliseconds), Mongo ObjectIds as strings.  Document-store reads and
writes are modelled by explicit state passing over a `Store` value holding
the committed auction, item and bid collections.  The controller performs
`Bid.create` and `auction.save()` as two separate writes; the possibility
that the second write fails after the first has committed is modelled by
the `saveOk` flag of `placeBidController`.  Bookkeeping fields that no
modelled operation reads or writes (`createdAt`/`updatedAt` timestamps,
`watchers`, admin-approval fields) are omitted from the embedding.
-/

/-- Lifecycle status of an auction: the `status` enum of the Auction model. -/
inductive AuctionStatus
  | draft
  | pending
  | active
  | ended
  | cancelled
  | sold
deriving DecidableEq, Repr

/-- Status of an item: the `status` enum of the Item model. -/
inductive ItemStatus
  | available
  | in_auction
  | sold
deriving DecidableEq, Repr

/-- An auction document (Auction model). -/
structure Auction where
  id : String
  item : String
  seller : String
  startPrice : ℚ
  currentPrice : ℚ
  reservePrice : ℚ
  minIncrement : ℚ
  startTime : ℤ
  endTime : ℤ
  status : AuctionStatus
  totalBids : Nat
  winner : Option String
  finalPrice : Option ℚ
deriving DecidableEq, Repr

/-- A bid document (Bid model): auction reference, bidder reference, amount. -/
structure Bid where
  auction : String
  bidder : String
  amount : ℚ
deriving DecidableEq, Repr

/-- An item document (Item model); only the fields the modelled operations touch. -/
structure Item where
  id : String
  seller : String
  status : ItemStatus
deriving DecidableEq, Repr

/-- The committed state of the document store: the auction, item and bid
collections. -/
structure Store where
  auctions : List Auction
  items : List Item
  bids : List Bid
deriving DecidableEq, Repr

/-- `auctionSchema.methods.isActive`: status is `active` and
`startTime <= now <= endTime`. -/
def Auction.isActive (a : Auction) (now : ℤ) : Bool :=
  a.status == AuctionStatus.active
    && decide (a.startTime ≤ now)
    && decide (now ≤ a.endTime)

/-- `auctionSchema.methods.hasEnded`: `now > endTime`. -/
def Auction.hasEnded (a : Auction) (now : ℤ) : Bool :=
  decide (a.endTime < now)

/-- The errors thrown by `auctionSchema.methods.placeBid`; the
increment error message interpolates `this.minIncrement`, so the
constructor carries it. -/
inductive PlaceBidError
  | notActive
  | tooLow
  | incrementTooSmall (minInc : ℚ)
deriving DecidableEq, Repr

/-- `auctionSchema.methods.placeBid(amount)`: validates against the
document's own state and on success mutates `currentPrice` and
`totalBids`; a thrown error is modelled as `Except.error`. -/
def Auction.placeBid (a : Auction) (amount : ℚ) (now : ℤ) :
    Except PlaceBidError Auction :=
  if !(a.isActive now) then Except.error PlaceBidError.notActive
  else if amount ≤ a.currentPrice then Except.error PlaceBidError.tooLow
  else if amount < a.currentPrice + a.minIncrement then
    Except.error (PlaceBidError.incrementTooSmall a.minIncrement)
  else Except.ok { a with currentPrice := amount, totalBids := a.totalBids + 1 }

/-- `Auction.findById`: first auction document with the given id. -/
def Store.findAuction (st : Store) (auctionId : String) : Option Auction :=
  st.auctions.find? (fun a => a.id == auctionId)

/-- `auction.save()`: replace the stored document(s) with this id. -/
def Store.updateAuction (st : Store) (a : Auction) : Store :=
  { st with auctions := st.auctions.map (fun b => if b.id = a.id then a else b) }

/-- `Item.findById`: first item document with the given id. -/
def Store.findItem (st : Store) (itemId : String) : Option Item :=
  st.items.find? (fun i => i.id == itemId)

/-- `Item.findByIdAndUpdate(itemId, \x7b status \x7d)`. -/
def Store.updateItemStatus (st : Store) (itemId : String) (s : ItemStatus) : Store :=
  { st with
      items := st.items.map (fun i => if i.id = itemId then { i with status := s } else i) }

/-- Number of committed Bid records for an auction. -/
def Store.bidCount (st : Store) (auctionId : String) : Nat :=
  (st.bids.filter (fun b => b.auction == auctionId)).length

/-- `mongoose.Types.ObjectId.isValid` for the string case: a 24-character
hex string. -/
def isHexChar (c : Char) : Bool :=
  c.isDigit || ('a' ≤ c && c ≤ 'f') || ('A' ≤ c && c ≤ 'F')

/-- Syntactic validity of an auction id (24-character hex ObjectId string). -/
def isValidObjectId (s : String) : Bool :=
  s.data.length == 24 && s.data.all isHexChar

/-- The outcome of one `placeBid` controller request, before JSON encoding. -/
inductive BidOutcome
  | invalidId
  | notFound
  | selfBid
  | validationError (e : PlaceBidError)
  | saveError
  | success (newPrice : ℚ) (newTotalBids : Nat)
deriving DecidableEq, Repr

/-- The bid controller `placeBid` (POST /api/bids/:auctionId): ObjectId
check, lookup, seller self-bid check, model-method validation, then
`Bid.create` followed by `auction.save()` as two separate writes.
`saveOk` is false when `auction.save()` fails after the bid document has
already been created; the code's catch block then reports a 500 without
undoing the bid write. -/
def placeBidController (st : Store) (auctionId bidderId : String) (amount : ℚ)
    (now : ℤ) (saveOk : Bool) : BidOutcome × Store :=
  if !(isValidObjectId auctionId) then (BidOutcome.invalidId, st)
  else
    match st.findAuction auctionId with
    | none => (BidOutcome.notFound, st)
    | some auction =>
      if auction.seller == bidderId then (BidOutcome.selfBid, st)
      else
        match auction.placeBid amount now with
        | Except.error e => (BidOutcome.validationError e, st)
        | Except.ok updated =>
          let afterBid : Store :=
            { st with bids := st.bids ++ [⟨auctionId, bidderId, amount⟩] }
          if saveOk then
            (BidOutcome.success updated.currentPrice updated.totalBids,
              afterBid.updateAuction updated)
          else (BidOutcome.saveError, afterBid)

/-- Shape of the controller's JSON reply: HTTP status, `message`, and the
optional fields.  The code never writes a `minimumNextBid` key, so that
field records whether one is present. -/
structure BidResponse where
  statusCode : Nat
  message : String
  minimumNextBid : Option ℚ
  currentPrice : Option ℚ
  totalBids : Option Nat
deriving DecidableEq, Repr

/-- The message of each error thrown by `Auction.placeBid`. -/
def placeBidErrMsg : PlaceBidError → String
  | PlaceBidError.notActive => "Auction is not active"
  | PlaceBidError.tooLow => "Bid must be higher than current price"
  | PlaceBidError.incrementTooSmall m => "Bid must be at least " ++ toString m ++ " higher"

/-- The JSON reply the controller sends for each outcome.  For a failed
`auction.save()` the 500 body carries the driver's error message, which is
environment-dependent and not modelled further. -/
def bidOutcomeResponse : BidOutcome → BidResponse
  | BidOutcome.invalidId => ⟨400, "Invalid auction ID", none, none, none⟩
  | BidOutcome.notFound => ⟨404, "Auction not found", none, none, none⟩
  | BidOutcome.selfBid => ⟨400, "You cannot bid on your own auction", none, none, none⟩
  | BidOutcome.validationError e => ⟨400, placeBidErrMsg e, none, none, none⟩
  | BidOutcome.saveError => ⟨500, "Internal server error", none, none, none⟩
  | BidOutcome.success p n => ⟨201, "Bid placed successfully", none, some p, some n⟩

/-- Outcome of the `cancelAuction` controller. -/
inductive CancelOutcome
  | notFound
  | forbidden
  | hasBids
  | ok
deriving DecidableEq, Repr

/-- The auction controller `cancelAuction` (DELETE /api/auctions/:id):
lookup, ownership check, `totalBids > 0` check, then set status to
`cancelled`, save, and set the referenced item's status to `available`. -/
def cancelAuction (st : Store) (auctionId userId : String) (isAdmin : Bool) :
    CancelOutcome × Store :=
  match st.findAuction auctionId with
  | none => (CancelOutcome.notFound, st)
  | some auction =>
    if auction.seller != userId && !isAdmin then (CancelOutcome.forbidden, st)
    else if auction.totalBids > 0 then (CancelOutcome.hasBids, st)
    else
      let stAuction := st.updateAuction { auction with status := AuctionStatus.cancelled }
      let stItem := stAuction.updateItemStatus auction.item ItemStatus.available
      (CancelOutcome.ok, stItem)

/-- Run a sequence of bid submissions against one auction, each decided
against the state left by the previous request (all saves succeeding),
and collect the committed prices of the accepted bids in order. -/
def runBidsOn (auctionId : String) : Store → List (String × ℚ × ℤ) → Store × List ℚ
  | st, [] => (st, [])
  | st, (bidderId, amount, now) :: rest =>
    match placeBidController st auctionId bidderId amount now true with
    | (BidOutcome.success p _, st1) =>
      let r := runBidsOn auctionId st1 rest
      (r.1, p :: r.2)
    | (_, st1) => runBidsOn auctionId st1 rest

/-- A concrete auction used to exercise the definitions: the spec's
scenario `startPrice=10, minIncrement=2, currentPrice=10`, active between
times 0 and 100. -/
def demoAuction : Auction :=
  { id := "aaaaaaaaaaaaaaaaaaaaaaaa"
    item := "bbbbbbbbbbbbbbbbbbbbbbbb"
    seller := "cccccccccccccccccccccccc"
    startPrice := 10
    currentPrice := 10
    reservePrice := 0
    minIncrement := 2
    startTime := 0
    endTime := 100
    status := AuctionStatus.active
    totalBids := 0
    winner := none
    finalPrice := none }

/-- A concrete store holding `demoAuction` and its item. -/
def demoStore : Store :=
  { auctions := [demoAuction]
    items := [⟨demoAuction.item, demoAuction.seller, ItemStatus.in_auction⟩]
    bids := [] }

/-- A concrete auction whose `endTime` is already in the past while its
status is still `active` (the scheduler-has-not-swept scenario). -/
def lateAuction : Auction :=
  { demoAuction with id := "eeeeeeeeeeeeeeeeeeeeeeee", startTime := 0, endTime := 10 }

/-- A concrete store holding `lateAuction`. -/
def lateStore : Store :=
  { auctions := [lateAuction], items := [], bids := [] }

/-- A concrete auction that has already ended with no bids. -/
def endedAuction : Auction :=
  { demoAuction with id := "dddddddddddddddddddddddd", status := AuctionStatus.ended }

/-- A concrete store holding `endedAuction` and its item. -/
def endedStore : Store :=
  { auctions := [endedAuction]
    items := [⟨demoAuction.item, demoAuction.seller, ItemStatus.in_auction⟩]
    bids := [] }

/-- A concrete active auction that has already received bids. -/
def biddenAuction : Auction :=
  { demoAuction with id := "abcdefabcdefabcdefabcdef", currentPrice := 15, totalBids := 2 }

/-- A concrete store holding `biddenAuction` and its two committed bids. -/
def biddenStore : Store :=
  { auctions := [biddenAuction]
    items := [⟨demoAuction.item, demoAuction.seller, ItemStatus.in_auction⟩]
    bids := [⟨biddenAuction.id, "dddd", 12⟩, ⟨biddenAuction.id, "hhhh", 15⟩] }

example : isValidObjectId "aaaaaaaaaaaaaaaaaaaaaaaa" = true := by decide
example : isValidObjectId "abc" = false := by decide
example : demoStore.findAuction "aaaaaaaaaaaaaaaaaaaaaaaa" = some demoAuction := by decide
example :
    (placeBidController demoStore "aaaaaaaaaaaaaaaaaaaaaaaa" "dddd" 11 50 true).1
      = BidOutcome.validationError (PlaceBidError.incrementTooSmall 2) := by
  with_unfolding_all decide
example :
    (placeBidController demoStore "aaaaaaaaaaaaaaaaaaaaaaaa" "dddd" 12 50 true).1
      = BidOutcome.success 12 1 := by with_unfolding_all decide
example :
    (placeBidController demoStore "aaaaaaaaaaaaaaaaaaaaaaaa"
      demoAuction.seller 12 50 true).1 = BidOutcome.selfBid := by decide

/-! ### Helper lemmas about the store operations -/

theorem findAuction_id {st : Store} {auctionId : String} {a : Auction}
    (h : st.findAuction auctionId = some a) : a.id = auctionId := by
  have h' : st.auctions.find? (fun b => b.id == auctionId) = some a := h
  simpa using List.find?_some h'

theorem find?_map_update (l : List Auction) (auctionId : String) (a a' : Auction)
    (h : l.find? (fun b => b.id == auctionId) = some a) (hid : a'.id = a.id) :
    (l.map (fun b => if b.id = a'.id then a' else b)).find?
      (fun b => b.id == auctionId) = some a' := by
  induction l with
  | nil => simp at h
  | cons x xs ih =>
    by_cases hx : x.id = auctionId
    · rw [List.find?_cons_of_pos _ (by simpa using hx)] at h
      have hxa : x = a := by simpa using h
      have hxa' : x.id = a'.id := by rw [hid, hxa]
      simp only [List.map_cons, if_pos hxa']
      exact List.find?_cons_of_pos _ (by simp [hid, ← hxa, hx])
    · rw [List.find?_cons_of_neg _ (by simpa using hx)] at h
      have haid : a.id = auctionId := by simpa using List.find?_some h
      have hxa' : ¬ x.id = a'.id := by rw [hid, haid]; exact hx
      simp only [List.map_cons, if_neg hxa']
      rw [List.find?_cons_of_neg _ (by simpa using hx)]
      exact ih h

theorem findAuction_updateAuction {st : Store} {auctionId : String} {a a' : Auction}
    (h : st.findAuction auctionId = some a) (hid : a'.id = a.id) :
    (st.updateAuction a').findAuction auctionId = some a' :=
  find?_map_update st.auctions auctionId a a' h hid

theorem find?_map_itemUpdate (l : List Item) (itemId : String) (it : Item) (s : ItemStatus)
    (h : l.find? (fun x => x.id == itemId) = some it) :
    (l.map (fun x => if x.id = itemId then { x with status := s } else x)).find?
      (fun x => x.id == itemId) = some { it with status := s } := by
  induction l with
  | nil => simp at h
  | cons x xs ih =>
    by_cases hx : x.id = itemId
    · rw [List.find?_cons_of_pos _ (by simpa using hx)] at h
      have hxa : x = it := by simpa using h
      subst hxa
      simp only [List.map_cons, if_pos hx]
      exact List.find?_cons_of_pos _ (by simp [hx])
    · rw [List.find?_cons_of_neg _ (by simpa using hx)] at h
      simp only [List.map_cons, if_neg hx]
      rw [List.find?_cons_of_neg _ (by simpa using hx)]
      exact ih h

theorem findItem_updateItemStatus {st : Store} {itemId : String} {it : Item}
    (s : ItemStatus) (h : st.findItem itemId = some it) :
    (st.updateItemStatus itemId s).findItem itemId = some { it with status := s } :=
  find?_map_itemUpdate st.items itemId it s h

theorem findAuction_updateItemStatus (st : Store) (itemId : String) (s : ItemStatus)
    (auctionId : String) :
    (st.updateItemStatus itemId s).findAuction auctionId = st.findAuction auctionId := rfl

/-! ### Helper lemmas about the placeBid model method -/

theorem placeBid_of_notActive {a : Auction} {now : ℤ} (amount : ℚ)
    (h : a.isActive now = false) :
    a.placeBid amount now = Except.error PlaceBidError.notActive := by
  simp [Auction.placeBid, h]

theorem placeBid_of_tooLow {a : Auction} {now : ℤ} {amount : ℚ}
    (h1 : a.isActive now = true) (h2 : amount ≤ a.currentPrice) :
    a.placeBid amount now = Except.error PlaceBidError.tooLow := by
  simp [Auction.placeBid, h1, h2]

theorem placeBid_of_smallIncrement {a : Auction} {now : ℤ} {amount : ℚ}
    (h1 : a.isActive now = true) (h2 : a.currentPrice < amount)
    (h3 : amount < a.currentPrice + a.minIncrement) :
    a.placeBid amount now = Except.error (PlaceBidError.incrementTooSmall a.minIncrement) := by
  simp [Auction.placeBid, h1, h2.not_le, h3]

theorem placeBid_of_ok {a : Auction} {now : ℤ} {amount : ℚ}
    (h1 : a.isActive now = true) (h2 : a.currentPrice < amount)
    (h3 : a.currentPrice + a.minIncrement ≤ amount) :
    a.placeBid amount now =
      Except.ok { a with currentPrice := amount, totalBids := a.totalBids + 1 } := by
  simp [Auction.placeBid, h1, h2.not_le, h3.not_lt]

theorem placeBid_ok_inv {a a' : Auction} {now : ℤ} {amount : ℚ}
    (h : a.placeBid amount now = Except.ok a') :
    a.isActive now = true ∧ a.currentPrice < amount ∧
      a.currentPrice + a.minIncrement ≤ amount ∧
      a' = { a with currentPrice := amount, totalBids := a.totalBids + 1 } := by
  by_cases h1 : a.isActive now
  · by_cases h2 : amount ≤ a.currentPrice
    · rw [placeBid_of_tooLow h1 h2] at h; cases h
    · by_cases h3 : amount < a.currentPrice + a.minIncrement
      · rw [placeBid_of_smallIncrement h1 (lt_of_not_le h2) h3] at h; cases h
      · refine ⟨h1, lt_of_not_le h2, le_of_not_lt h3, ?_⟩
        rw [placeBid_of_ok h1 (lt_of_not_le h2) (le_of_not_lt h3)] at h
        exact (Except.ok.inj h).symm
  · rw [placeBid_of_notActive amount (by simpa using h1)] at h; cases h

/-! ### Branch lemmas for the placeBid controller -/

theorem findAuction_setBids (st : Store) (l : List Bid) (auctionId : String) :
    Store.findAuction { st with bids := l } auctionId = st.findAuction auctionId := rfl

theorem placeBidController_invalid {st : Store} {auctionId bidderId : String}
    {amount : ℚ} {now : ℤ} {saveOk : Bool}
    (hv : isValidObjectId auctionId = false) :
    placeBidController st auctionId bidderId amount now saveOk = (BidOutcome.invalidId, st) := by
  simp [placeBidController, hv]

theorem placeBidController_notFound {st : Store} {auctionId bidderId : String}
    {amount : ℚ} {now : ℤ} {saveOk : Bool}
    (hv : isValidObjectId auctionId = true) (hfind : st.findAuction auctionId = none) :
    placeBidController st auctionId bidderId amount now saveOk = (BidOutcome.notFound, st) := by
  simp [placeBidController, hv, hfind]

theorem placeBidController_selfBid {st : Store} {auctionId bidderId : String}
    {amount : ℚ} {now : ℤ} {saveOk : Bool} {a : Auction}
    (hv : isValidObjectId auctionId = true) (hfind : st.findAuction auctionId = some a)
    (hs : a.seller = bidderId) :
    placeBidController st auctionId bidderId amount now saveOk = (BidOutcome.selfBid, st) := by
  simp [placeBidController, hv, hfind, hs]

theorem placeBidController_reject {st : Store} {auctionId bidderId : String}
    {amount : ℚ} {now : ℤ} {saveOk : Bool} {a : Auction} {e : PlaceBidError}
    (hv : isValidObjectId auctionId = true) (hfind : st.findAuction auctionId = some a)
    (hs : a.seller ≠ bidderId) (he : a.placeBid amount now = Except.error e) :
    placeBidController st auctionId bidderId amount now saveOk
      = (BidOutcome.validationError e, st) := by
  simp [placeBidController, hv, hfind, hs, he]

theorem placeBidController_accept {st : Store} {auctionId bidderId : String}
    {amount : ℚ} {now : ℤ} {a a' : Auction}
    (hv : isValidObjectId auctionId = true) (hfind : st.findAuction auctionId = some a)
    (hs : a.seller ≠ bidderId) (hok : a.placeBid amount now = Except.ok a') :
    placeBidController st auctionId bidderId amount now true
      = (BidOutcome.success a'.currentPrice a'.totalBids,
          Store.updateAuction { st with bids := st.bids ++ [⟨auctionId, bidderId, amount⟩] } a') := by
  simp [placeBidController, hv, hfind, hs, hok]

theorem placeBidController_saveFail {st : Store} {auctionId bidderId : String}
    {amount : ℚ} {now : ℤ} {a a' : Auction}
    (hv : isValidObjectId auctionId = true) (hfind : st.findAuction auctionId = some a)
    (hs : a.seller ≠ bidderId) (hok : a.placeBid amount now = Except.ok a') :
    placeBidController st auctionId bidderId amount now false
      = (BidOutcome.saveError, { st with bids := st.bids ++ [⟨auctionId, bidderId, amount⟩] }) := by
  simp [placeBidController, hv, hfind, hs, hok]

/-- Effect of one controller request on the stored record of the targeted
auction: an accepted bid strictly raises the stored price to the committed
price; any other outcome leaves the stored auction document unchanged. -/
theorem placeBidController_step {st st1 : Store} {auctionId bidderId : String}
    {amount : ℚ} {now : ℤ} {saveOk : Bool} {a : Auction} {out : BidOutcome}
    (hfind : st.findAuction auctionId = some a)
    (hc : placeBidController st auctionId bidderId amount now saveOk = (out, st1)) :
    (∀ p n, out = BidOutcome.success p n →
      a.currentPrice < p ∧ ∃ a', st1.findAuction auctionId = some a' ∧ a'.currentPrice = p) ∧
    ((∀ p n, out ≠ BidOutcome.success p n) → st1.findAuction auctionId = some a) := by
  cases hv : isValidObjectId auctionId with
  | false =>
    rw [placeBidController_invalid hv] at hc
    injection hc with h1 h2
    subst h1; subst h2
    exact ⟨fun p n hpn => BidOutcome.noConfusion hpn, fun _ => hfind⟩
  | true =>
    by_cases hs : a.seller = bidderId
    · rw [placeBidController_selfBid hv hfind hs] at hc
      injection hc with h1 h2
      subst h1; subst h2
      exact ⟨fun p n hpn => BidOutcome.noConfusion hpn, fun _ => hfind⟩
    · cases hpb : a.placeBid amount now with
      | error e =>
        rw [placeBidController_reject hv hfind hs hpb] at hc
        injection hc with h1 h2
        subst h1; subst h2
        exact ⟨fun p n hpn => BidOutcome.noConfusion hpn, fun _ => hfind⟩
      | ok a' =>
        obtain ⟨hact, hlt, hinc, ha'⟩ := placeBid_ok_inv hpb
        have hid : a'.id = a.id := by rw [ha']
        have hcp : a'.currentPrice = amount := by rw [ha']
        cases saveOk with
        | true =>
          rw [placeBidController_accept hv hfind hs hpb] at hc
          injection hc with h1 h2
          subst h1; subst h2
          constructor
          · intro p n hpn
            injection hpn with hp hn
            refine ⟨?_, a', ?_, hp⟩
            · rw [← hp, hcp]; exact hlt
            · exact findAuction_updateAuction
                (show Store.findAuction
                    { st with bids := st.bids ++ [⟨auctionId, bidderId, amount⟩] } auctionId
                  = some a from hfind) hid
          · intro hno
            exact absurd rfl (hno a'.currentPrice a'.totalBids)
        | false =>
          rw [placeBidController_saveFail hv hfind hs hpb] at hc
          injection hc with h1 h2
          subst h1; subst h2
          exact ⟨fun p n hpn => BidOutcome.noConfusion hpn, fun _ => hfind⟩

/-- Over a sequential run of bid submissions against one auction, the
committed prices form a strictly increasing chain starting above the
initial stored price, and the final stored price never drops below the
initial one. -/
theorem runBidsOn_chain (auctionId : String) (reqs : List (String × ℚ × ℤ)) :
    ∀ (st : Store) (a : Auction), st.findAuction auctionId = some a →
      List.Chain (· < ·) a.currentPrice (runBidsOn auctionId st reqs).2 ∧
      ∃ a', (runBidsOn auctionId st reqs).1.findAuction auctionId = some a' ∧
        a.currentPrice ≤ a'.currentPrice := by
  induction reqs with
  | nil =>
    intro st a hfind
    simp only [runBidsOn]
    exact ⟨List.Chain.nil, a, hfind, le_refl _⟩
  | cons req rest ih =>
    obtain ⟨bidderId, amount, now⟩ := req
    intro st a hfind
    rcases hcall : placeBidController st auctionId bidderId amount now true with ⟨out, st1⟩
    have hstep := placeBidController_step hfind hcall
    cases out with
    | success p n =>
      obtain ⟨hlt, a1, hfind1, hcp1⟩ := hstep.1 p n rfl
      obtain ⟨hchain, a2, hfind2, hle2⟩ := ih st1 a1 hfind1
      have hrun : runBidsOn auctionId st ((bidderId, amount, now) :: rest) =
          ((runBidsOn auctionId st1 rest).1, p :: (runBidsOn auctionId st1 rest).2) := by
        rw [runBidsOn, hcall]
      rw [hrun]
      constructor
      · exact List.Chain.cons hlt (hcp1 ▸ hchain)
      · exact ⟨a2, hfind2, le_trans (le_of_lt (lt_of_lt_of_le hlt (le_of_eq hcp1.symm)))
          (hcp1 ▸ hle2)⟩
    | invalidId =>
      have hkeep := hstep.2 (fun p n hpn => BidOutcome.noConfusion hpn)
      have hrun : runBidsOn auctionId st ((bidderId, amount, now) :: rest) =
          runBidsOn auctionId st1 rest := by rw [runBidsOn, hcall]
      rw [hrun]; exact ih st1 a hkeep
    | notFound =>
      have hkeep := hstep.2 (fun p n hpn => BidOutcome.noConfusion hpn)
      have hrun : runBidsOn auctionId st ((bidderId, amount, now) :: rest) =
          runBidsOn auctionId st1 rest := by rw [runBidsOn, hcall]
      rw [hrun]; exact ih st1 a hkeep
    | selfBid =>
      have hkeep := hstep.2 (fun p n hpn => BidOutcome.noConfusion hpn)
      have hrun : runBidsOn auctionId st ((bidderId, amount, now) :: rest) =
          runBidsOn auctionId st1 rest := by rw [runBidsOn, hcall]
      rw [hrun]; exact ih st1 a hkeep
    | validationError e =>
      have hkeep := hstep.2 (fun p n hpn => BidOutcome.noConfusion hpn)
      have hrun : runBidsOn auctionId st ((bidderId, amount, now) :: rest) =
          runBidsOn auctionId st1 rest := by rw [runBidsOn, hcall]
      rw [hrun]; exact ih st1 a hkeep
    | saveError =>
      have hkeep := hstep.2 (fun p n hpn => BidOutcome.noConfusion hpn)
      have hrun : runBidsOn auctionId st ((bidderId, amount, now) :: rest) =
          runBidsOn auctionId st1 rest := by rw [runBidsOn, hcall]
      rw [hrun]; exact ih st1 a hkeep

/-- Inversion for an accepted bid: a success outcome forces every
validation condition, pins the committed price and count, and exhibits
the committed store. -/
theorem placeBidController_success_inv {st st' : Store} {auctionId bidderId : String}
    {amount p : ℚ} {now : ℤ} {saveOk : Bool} {n : Nat} {a : Auction}
    (hv : isValidObjectId auctionId = true) (hfind : st.findAuction auctionId = some a)
    (hc : placeBidController st auctionId bidderId amount now saveOk
      = (BidOutcome.success p n, st')) :
    a.seller ≠ bidderId ∧ a.isActive now = true ∧ a.currentPrice < amount ∧
      a.currentPrice + a.minIncrement ≤ amount ∧ p = amount ∧ n = a.totalBids + 1 ∧
      st' = Store.updateAuction { st with bids := st.bids ++ [⟨auctionId, bidderId, amount⟩] }
              { a with currentPrice := amount, totalBids := a.totalBids + 1 } := by
  by_cases hs : a.seller = bidderId
  · rw [placeBidController_selfBid hv hfind hs] at hc
    exact absurd (congrArg Prod.fst hc) (by simp)
  · cases hpb : a.placeBid amount now with
    | error e =>
      rw [placeBidController_reject hv hfind hs hpb] at hc
      exact absurd (congrArg Prod.fst hc) (by simp)
    | ok a' =>
      obtain ⟨hact, hlt, hinc, ha'⟩ := placeBid_ok_inv hpb
      cases saveOk with
      | false =>
        rw [placeBidController_saveFail hv hfind hs hpb] at hc
        exact absurd (congrArg Prod.fst hc) (by simp)
      | true =>
        rw [placeBidController_accept hv hfind hs hpb] at hc
        injection hc with h1 h2
        injection h1 with hp hn
        subst ha'
        exact ⟨hs, hact, hlt, hinc, hp.symm, hn.symm, h2.symm⟩

/-- Characterization of a successful cancellation: an authorized request
on a bid-free auction sets the auction's status to `cancelled` and the
item's status to `available`. -/
theorem cancelAuction_ok {st : Store} {auctionId userId : String} {isAdmin : Bool}
    {a : Auction} (hfind : st.findAuction auctionId = some a)
    (hauth : a.seller = userId ∨ isAdmin = true) (hbids : a.totalBids = 0) :
    cancelAuction st auctionId userId isAdmin =
      (CancelOutcome.ok,
        (st.updateAuction { a with status := AuctionStatus.cancelled }).updateItemStatus
          a.item ItemStatus.available) := by
  have hguard : (a.seller != userId && !isAdmin) = false := by
    cases hauth with
    | inl h => simp [h]
    | inr h => simp [h]
  simp [cancelAuction, hfind, hguard, hbids]

/-- Characterization of a rejected cancellation: any auction with committed
bids is refused, regardless of its status, and the store is untouched. -/
theorem cancelAuction_hasBids {st : Store} {auctionId userId : String} {isAdmin : Bool}
    {a : Auction} (hfind : st.findAuction auctionId = some a)
    (hauth : a.seller = userId ∨ isAdmin = true) (hbids : 0 < a.totalBids) :
    cancelAuction st auctionId userId isAdmin = (CancelOutcome.hasBids, st) := by
  have hguard : (a.seller != userId && !isAdmin) = false := by
    cases hauth with
    | inl h => simp [h]
    | inr h => simp [h]
  simp [cancelAuction, hfind, hguard, hbids]

theorem findItem_updateAuction (st : Store) (b : Auction) (itemId : String) :
    (st.updateAuction b).findItem itemId = st.findItem itemId := rfl

/-! ### Claim theorems -/

/-- Claim C1: a bid submission on a stored auction is accepted if and only
if the auction is active (status `active` and `startTime <= now <= endTime`),
the bidder is not the seller, and `amount >= currentPrice + minIncrement`;
on acceptance the stored `currentPrice` becomes exactly the bid amount and
`totalBids` increases by exactly 1.  `minIncrement > 0` as the data model
requires (schema minimum 0.01). -/
theorem auctionIt_C1 (st : Store) (auctionId bidderId : String) (amount : ℚ) (now : ℤ)
    (a : Auction) (hv : isValidObjectId auctionId = true)
    (hfind : st.findAuction auctionId = some a) (hmi : 0 < a.minIncrement) :
    ((∃ p n st', placeBidController st auctionId bidderId amount now true
        = (BidOutcome.success p n, st'))
      ↔ (a.isActive now = true ∧ bidderId ≠ a.seller ∧
          a.currentPrice + a.minIncrement ≤ amount)) ∧
    (∀ p n st', placeBidController st auctionId bidderId amount now true
        = (BidOutcome.success p n, st') →
      p = amount ∧ n = a.totalBids + 1 ∧
      ∃ a', st'.findAuction auctionId = some a' ∧
        a'.currentPrice = amount ∧ a'.totalBids = a.totalBids + 1) := by
  constructor
  · constructor
    · rintro ⟨p, n, st', hc⟩
      obtain ⟨hs, hact, _, hinc, _, _, _⟩ := placeBidController_success_inv hv hfind hc
      exact ⟨hact, fun h => hs h.symm, hinc⟩
    · rintro ⟨hact, hne, hinc⟩
      have hlt : a.currentPrice < amount :=
        lt_of_lt_of_le (lt_add_of_pos_right _ hmi) hinc
      have hok := placeBid_of_ok hact hlt hinc
      exact ⟨_, _, _, placeBidController_accept hv hfind (fun h => hne h.symm) hok⟩
  · intro p n st' hc
    obtain ⟨hs, hact, hlt, hinc, hp, hn, hst'⟩ := placeBidController_success_inv hv hfind hc
    refine ⟨hp, hn, { a with currentPrice := amount, totalBids := a.totalBids + 1 }, ?_, rfl, rfl⟩
    rw [hst']
    exact findAuction_updateAuction
      (show Store.findAuction
          { st with bids := st.bids ++ [⟨auctionId, bidderId, amount⟩] } auctionId
        = some a from hfind) rfl

theorem auctionIt_C1_witness :
    ∃ p n st', placeBidController demoStore "aaaaaaaaaaaaaaaaaaaaaaaa" "dddd" 12 50 true
      = (BidOutcome.success p n, st') :=
  ((auctionIt_C1 demoStore "aaaaaaaaaaaaaaaaaaaaaaaa" "dddd" 12 50 demoAuction (by decide)
      (by decide) (by decide)).1).mpr
    ⟨by decide, by decide, by with_unfolding_all decide⟩

/-- Claim C2: over any sequence of bid submissions against one auction,
each decided against the state left by the previous commit, the committed
`currentPrice` values are strictly increasing; and no single controller
request ever decreases the stored `currentPrice`. -/
theorem auctionIt_C2 (auctionId : String) (st : Store) (a : Auction)
    (hfind : st.findAuction auctionId = some a) :
    (∀ reqs : List (String × ℚ × ℤ),
      List.Chain (· < ·) a.currentPrice (runBidsOn auctionId st reqs).2) ∧
    (∀ (bidderId : String) (amount : ℚ) (now : ℤ) (saveOk : Bool),
      ∃ a', ((placeBidController st auctionId bidderId amount now saveOk).2).findAuction
          auctionId = some a' ∧ a.currentPrice ≤ a'.currentPrice) := by
  constructor
  · intro reqs
    exact (runBidsOn_chain auctionId reqs st a hfind).1
  · intro bidderId amount now saveOk
    rcases hcall : placeBidController st auctionId bidderId amount now saveOk with ⟨out, st1⟩
    have hstep := placeBidController_step hfind hcall
    cases out with
    | success p n =>
      obtain ⟨hlt, a', hfind', hcp⟩ := hstep.1 p n rfl
      exact ⟨a', hfind', by rw [hcp]; exact hlt.le⟩
    | invalidId =>
      exact ⟨a, hstep.2 (fun p n hpn => BidOutcome.noConfusion hpn), le_refl _⟩
    | notFound =>
      exact ⟨a, hstep.2 (fun p n hpn => BidOutcome.noConfusion hpn), le_refl _⟩
    | selfBid =>
      exact ⟨a, hstep.2 (fun p n hpn => BidOutcome.noConfusion hpn), le_refl _⟩
    | validationError e =>
      exact ⟨a, hstep.2 (fun p n hpn => BidOutcome.noConfusion hpn), le_refl _⟩
    | saveError =>
      exact ⟨a, hstep.2 (fun p n hpn => BidOutcome.noConfusion hpn), le_refl _⟩

theorem auctionIt_C2_witness :
    List.Chain (· < ·) demoAuction.currentPrice
      (runBidsOn "aaaaaaaaaaaaaaaaaaaaaaaa" demoStore
        [("dddd", 12, 50), ("hhhh", 15, 60)]).2 :=
  (auctionIt_C2 "aaaaaaaaaaaaaaaaaaaaaaaa" demoStore demoAuction (by decide)).1
    [("dddd", 12, 50), ("hhhh", 15, 60)]

/-- Counterexample to claim C3: the code checks the seller self-bid rule
before the active check, so the seller bidding on their own auction whose
`endTime` has passed is rejected as a self-bid, not as `NotActive` as the
claim requires. -/
theorem auctionIt_C3_cex :
    (placeBidController lateStore "eeeeeeeeeeeeeeeeeeeeeeee"
        "cccccccccccccccccccccccc" 999 50 true).1 = BidOutcome.selfBid ∧
    (placeBidController lateStore "eeeeeeeeeeeeeeeeeeeeeeee"
        "cccccccccccccccccccccccc" 999 50 true).1
      ≠ BidOutcome.validationError PlaceBidError.notActive := by
  exact ⟨by decide, by decide⟩

/-- Claim C3 amended: the admission rules are checked in the code's order,
first failure wins: invalid id, then unknown auction, then SelfBid, then
NotActive, then TooLow (`amount <= currentPrice`), then IncrementTooSmall
(`amount < currentPrice + minIncrement`); there is no separate
`amount > 0` (InvalidAmount) check, and the seller bidding on their own
inactive auction is rejected as SelfBid, not NotActive. -/
theorem auctionIt_C3 (st : Store) (auctionId bidderId : String) (amount : ℚ) (now : ℤ)
    (saveOk : Bool) (a : Auction) (hv : isValidObjectId auctionId = true)
    (hfind : st.findAuction auctionId = some a) :
    (a.seller = bidderId →
      placeBidController st auctionId bidderId amount now saveOk
        = (BidOutcome.selfBid, st)) ∧
    (a.seller ≠ bidderId → a.isActive now = false →
      placeBidController st auctionId bidderId amount now saveOk
        = (BidOutcome.validationError PlaceBidError.notActive, st)) ∧
    (a.seller ≠ bidderId → a.isActive now = true → amount ≤ a.currentPrice →
      placeBidController st auctionId bidderId amount now saveOk
        = (BidOutcome.validationError PlaceBidError.tooLow, st)) ∧
    (a.seller ≠ bidderId → a.isActive now = true → a.currentPrice < amount →
      amount < a.currentPrice + a.minIncrement →
      placeBidController st auctionId bidderId amount now saveOk
        = (BidOutcome.validationError (PlaceBidError.incrementTooSmall a.minIncrement), st)) := by
  refine ⟨?_, ?_, ?_, ?_⟩
  · intro hs
    exact placeBidController_selfBid hv hfind hs
  · intro hs hact
    exact placeBidController_reject hv hfind hs (placeBid_of_notActive amount hact)
  · intro hs hact hle
    exact placeBidController_reject hv hfind hs (placeBid_of_tooLow hact hle)
  · intro hs hact hlt hsmall
    exact placeBidController_reject hv hfind hs (placeBid_of_smallIncrement hact hlt hsmall)

theorem auctionIt_C3_witness :
    placeBidController demoStore "aaaaaaaaaaaaaaaaaaaaaaaa" "dddd" 5 50 true
      = (BidOutcome.validationError PlaceBidError.tooLow, demoStore) :=
  (auctionIt_C3 demoStore "aaaaaaaaaaaaaaaaaaaaaaaa" "dddd" 5 50 true demoAuction
      (by decide) (by decide)).2.2.1 (by decide) (by decide) (by decide)

/-- Claim C4, failing run: the controller creates the Bid record and saves
the auction as two separate writes with no transaction.  When
`auction.save()` fails after `Bid.create` has committed (modelled by
`saveOk = false`), the submission completes with an error while the store
holds one committed Bid record for the auction and `totalBids = 0` — the
partial commit the claim says is never observable. -/
theorem auctionIt_C4 :
    (placeBidController demoStore "aaaaaaaaaaaaaaaaaaaaaaaa" "dddd" 12 50 false).1
        = BidOutcome.saveError ∧
    Store.bidCount (placeBidController demoStore "aaaaaaaaaaaaaaaaaaaaaaaa" "dddd" 12 50 false).2
        "aaaaaaaaaaaaaaaaaaaaaaaa" = 1 ∧
    ∃ a', ((placeBidController demoStore "aaaaaaaaaaaaaaaaaaaaaaaa" "dddd" 12 50 false).2).findAuction
        "aaaaaaaaaaaaaaaaaaaaaaaa" = some a' ∧ a'.totalBids = 0 := by
  refine ⟨?_, ?_, demoAuction, ?_, ?_⟩ <;> with_unfolding_all decide

/-- Counterexample to claim C5: a bid on an auction whose status is still
`active` but whose `endTime` is past is rejected as NotActive, as claimed,
but the submission performs no `active -> ended/sold` transition: the
stored status remains `active`. -/
theorem auctionIt_C5_cex :
    (placeBidController lateStore "eeeeeeeeeeeeeeeeeeeeeeee" "dddd" 999 50 true).1
        = BidOutcome.validationError PlaceBidError.notActive ∧
    ∃ a', ((placeBidController lateStore "eeeeeeeeeeeeeeeeeeeeeeee" "dddd" 999 50 true).2).findAuction
        "eeeeeeeeeeeeeeeeeeeeeeee" = some a' ∧
      a'.status = AuctionStatus.active ∧
      a'.status ≠ AuctionStatus.ended ∧ a'.status ≠ AuctionStatus.sold := by
  refine ⟨by decide, lateAuction, by decide, by decide, by decide, by decide⟩

/-- Claim C5 amended: a bid submitted by a non-seller to an auction whose
status is still `active` but whose `endTime` is already in the past is
rejected as NotActive and is never accepted, but no lifecycle transition
is performed: the store, including the auction's status, is left entirely
unchanged. -/
theorem auctionIt_C5 (st : Store) (auctionId bidderId : String) (amount : ℚ) (now : ℤ)
    (saveOk : Bool) (a : Auction) (hv : isValidObjectId auctionId = true)
    (hfind : st.findAuction auctionId = some a)
    (hstat : a.status = AuctionStatus.active) (hlate : a.endTime < now)
    (hs : bidderId ≠ a.seller) :
    placeBidController st auctionId bidderId amount now saveOk
      = (BidOutcome.validationError PlaceBidError.notActive, st) := by
  have hact : a.isActive now = false := by
    simp [Auction.isActive, hlate.not_le]
  exact placeBidController_reject hv hfind (fun h => hs h.symm)
    (placeBid_of_notActive amount hact)

theorem auctionIt_C5_witness :
    placeBidController lateStore "eeeeeeeeeeeeeeeeeeeeeeee" "dddd" 999 50 true
      = (BidOutcome.validationError PlaceBidError.notActive, lateStore) :=
  auctionIt_C5 lateStore "eeeeeeeeeeeeeeeeeeeeeeee" "dddd" 999 50 true lateAuction
    (by decide) (by decide) (by decide) (by decide) (by decide)

/-- Claim C6: a bid submission whose bidder id equals the stored auction's
seller id is rejected as a self-bid regardless of the amount, and the
store — the auction's `currentPrice` and `totalBids`, and the bid
collection — is left entirely unchanged. -/
theorem auctionIt_C6 (st : Store) (auctionId bidderId : String) (amount : ℚ) (now : ℤ)
    (saveOk : Bool) (a : Auction) (hv : isValidObjectId auctionId = true)
    (hfind : st.findAuction auctionId = some a) (hs : bidderId = a.seller) :
    placeBidController st auctionId bidderId amount now saveOk
      = (BidOutcome.selfBid, st) :=
  placeBidController_selfBid hv hfind hs.symm

theorem auctionIt_C6_witness :
    placeBidController demoStore "aaaaaaaaaaaaaaaaaaaaaaaa"
        "cccccccccccccccccccccccc" 999 50 true = (BidOutcome.selfBid, demoStore) :=
  auctionIt_C6 demoStore "aaaaaaaaaaaaaaaaaaaaaaaa" "cccccccccccccccccccccccc" 999 50 true
    demoAuction (by decide) (by decide) (by decide)

/-- Counterexample to claim C7: `cancelAuction` checks only ownership and
`totalBids > 0`, never the current status, so an auction whose status is
`ended` (with zero bids) is moved to `cancelled` — a transition the claim
says never happens. -/
theorem auctionIt_C7_cex :
    (cancelAuction endedStore "dddddddddddddddddddddddd"
        "cccccccccccccccccccccccc" false).1 = CancelOutcome.ok ∧
    ∃ a', ((cancelAuction endedStore "dddddddddddddddddddddddd"
        "cccccccccccccccccccccccc" false).2).findAuction "dddddddddddddddddddddddd"
        = some a' ∧ a'.status = AuctionStatus.cancelled := by
  refine ⟨by decide, { endedAuction with status := AuctionStatus.cancelled }, by decide, by decide⟩

/-- Claim C7 amended: the cancel operation rejects any auction with
`totalBids > 0` and leaves the store unchanged; but when `totalBids = 0`
an authorized cancel succeeds from any status — including `draft`, `ended`
and `sold` — setting the status to `cancelled`.  The only state gate is
`totalBids == 0`. -/
theorem auctionIt_C7 (st : Store) (auctionId userId : String) (isAdmin : Bool)
    (a : Auction) (hfind : st.findAuction auctionId = some a)
    (hauth : a.seller = userId ∨ isAdmin = true) :
    (0 < a.totalBids →
      cancelAuction st auctionId userId isAdmin = (CancelOutcome.hasBids, st)) ∧
    (a.totalBids = 0 →
      (cancelAuction st auctionId userId isAdmin).1 = CancelOutcome.ok ∧
      ∃ a', ((cancelAuction st auctionId userId isAdmin).2).findAuction auctionId
          = some a' ∧ a' = { a with status := AuctionStatus.cancelled }) := by
  constructor
  · intro hbids
    exact cancelAuction_hasBids hfind hauth hbids
  · intro hbids
    rw [cancelAuction_ok hfind hauth hbids]
    refine ⟨rfl, { a with status := AuctionStatus.cancelled }, ?_, rfl⟩
    rw [findAuction_updateItemStatus]
    exact findAuction_updateAuction hfind rfl

theorem auctionIt_C7_witness :
    cancelAuction biddenStore "abcdefabcdefabcdefabcdef" "cccccccccccccccccccccccc" false
      = (CancelOutcome.hasBids, biddenStore) :=
  (auctionIt_C7 biddenStore "abcdefabcdefabcdefabcdef" "cccccccccccccccccccccccc" false
      biddenAuction (by decide) (Or.inl (by decide))).1 (by decide)

/-- Counterexample to claim C8: the TooLow rejection carries only a
message string; no `minimumNextBid` field equal to
`currentPrice + minIncrement` (here 12) is returned. -/
theorem auctionIt_C8_cex :
    bidOutcomeResponse
        (placeBidController demoStore "aaaaaaaaaaaaaaaaaaaaaaaa" "dddd" 5 50 true).1
      = ⟨400, "Bid must be higher than current price", none, none, none⟩ ∧
    (bidOutcomeResponse
        (placeBidController demoStore "aaaaaaaaaaaaaaaaaaaaaaaa" "dddd" 5 50 true).1).minimumNextBid
      ≠ some (demoAuction.currentPrice + demoAuction.minIncrement) := by
  exact ⟨by decide, by decide⟩

/-- Claim C8 amended: every bid rejection carries a human-readable message
string specific to the reason (the fixed rejection messages are pairwise
distinct), but no response ever carries a `minimumNextBid` field; a TooLow
rejection's reply is status 400 with message
"Bid must be higher than current price" and nothing else. -/
theorem auctionIt_C8 :
    (∀ o : BidOutcome, (bidOutcomeResponse o).minimumNextBid = none) ∧
    (∀ (st : Store) (auctionId bidderId : String) (amount : ℚ) (now : ℤ) (saveOk : Bool),
      (placeBidController st auctionId bidderId amount now saveOk).1
          = BidOutcome.validationError PlaceBidError.tooLow →
      bidOutcomeResponse (placeBidController st auctionId bidderId amount now saveOk).1
        = ⟨400, "Bid must be higher than current price", none, none, none⟩) ∧
    List.Pairwise (· ≠ ·)
      [(bidOutcomeResponse BidOutcome.invalidId).message,
       (bidOutcomeResponse BidOutcome.notFound).message,
       (bidOutcomeResponse BidOutcome.selfBid).message,
       (bidOutcomeResponse (BidOutcome.validationError PlaceBidError.notActive)).message,
       (bidOutcomeResponse (BidOutcome.validationError PlaceBidError.tooLow)).message] := by
  refine ⟨?_, ?_, ?_⟩
  · intro o
    cases o with
    | invalidId => rfl
    | notFound => rfl
    | selfBid => rfl
    | validationError e => rfl
    | saveError => rfl
    | success p n => rfl
  · intro st auctionId bidderId amount now saveOk h
    rw [h]; rfl
  · decide

theorem auctionIt_C8_witness :
    bidOutcomeResponse
        (placeBidController demoStore "aaaaaaaaaaaaaaaaaaaaaaaa" "hhhh" 7 50 true).1
      = ⟨400, "Bid must be higher than current price", none, none, none⟩ :=
  auctionIt_C8.2.1 demoStore "aaaaaaaaaaaaaaaaaaaaaaaa" "hhhh" 7 50 true (by decide)

/-- Claim C9: a successful cancellation sets the auction's status to
`cancelled` and the referenced item's status back to `available`, while
the auction's pricing fields (`startPrice`, `currentPrice`,
`reservePrice`, `minIncrement`), its `startTime`/`endTime` and its
`totalBids` are left unchanged. -/
theorem auctionIt_C9 (st : Store) (auctionId userId : String) (isAdmin : Bool)
    (a : Auction) (it : Item) (hfind : st.findAuction auctionId = some a)
    (hitem : st.findItem a.item = some it)
    (hauth : a.seller = userId ∨ isAdmin = true) (hbids : a.totalBids = 0) :
    (cancelAuction st auctionId userId isAdmin).1 = CancelOutcome.ok ∧
    (∃ a', ((cancelAuction st auctionId userId isAdmin).2).findAuction auctionId = some a' ∧
      a'.status = AuctionStatus.cancelled ∧
      a'.startPrice = a.startPrice ∧ a'.currentPrice = a.currentPrice ∧
      a'.reservePrice = a.reservePrice ∧ a'.minIncrement = a.minIncrement ∧
      a'.startTime = a.startTime ∧ a'.endTime = a.endTime ∧ a'.totalBids = a.totalBids) ∧
    (∃ it', ((cancelAuction st auctionId userId isAdmin).2).findItem a.item = some it' ∧
      it'.status = ItemStatus.available) := by
  rw [cancelAuction_ok hfind hauth hbids]
  refine ⟨rfl, ?_, ?_⟩
  · refine ⟨{ a with status := AuctionStatus.cancelled }, ?_,
      rfl, rfl, rfl, rfl, rfl, rfl, rfl, rfl⟩
    rw [findAuction_updateItemStatus]
    exact findAuction_updateAuction hfind rfl
  · refine ⟨{ it with status := ItemStatus.available }, ?_, rfl⟩
    have hitem' : (st.updateAuction { a with status := AuctionStatus.cancelled }).findItem
        a.item = some it := by
      rw [findItem_updateAuction]; exact hitem
    exact findItem_updateItemStatus ItemStatus.available hitem'

theorem auctionIt_C9_witness :
    (cancelAuction endedStore "dddddddddddddddddddddddd"
        "cccccccccccccccccccccccc" false).1 = CancelOutcome.ok ∧
    ∃ it', ((cancelAuction endedStore "dddddddddddddddddddddddd"
        "cccccccccccccccccccccccc" false).2).findItem endedAuction.item = some it' ∧
      it'.status = ItemStatus.available :=
  have h := auctionIt_C9 endedStore "dddddddddddddddddddddddd" "cccccccccccccccccccccccc"
    false endedAuction ⟨demoAuction.item, demoAuction.seller, ItemStatus.in_auction⟩
    (by decide) (by decide) (Or.inl (by decide)) (by decide)
  ⟨h.1, h.2.2⟩

/-- Claim C10: a bid with a syntactically invalid auction id yields a 400
"Invalid auction ID" reply, and a well-formed id matching no auction a 404
"Auction not found" reply; in both cases the store is returned unchanged —
no Bid record is created and no auction is modified. -/
theorem auctionIt_C10 :
    (∀ (st : Store) (auctionId bidderId : String) (amount : ℚ) (now : ℤ) (saveOk : Bool),
      isValidObjectId auctionId = false →
        placeBidController st auctionId bidderId amount now saveOk
          = (BidOutcome.invalidId, st) ∧
        bidOutcomeResponse BidOutcome.invalidId
          = ⟨400, "Invalid auction ID", none, none, none⟩) ∧
    (∀ (st : Store) (auctionId bidderId : String) (amount : ℚ) (now : ℤ) (saveOk : Bool),
      isValidObjectId auctionId = true → st.findAuction auctionId = none →
        placeBidController st auctionId bidderId amount now saveOk
          = (BidOutcome.notFound, st) ∧
        bidOutcomeResponse BidOutcome.notFound
          = ⟨404, "Auction not found", none, none, none⟩) := by
  constructor
  · intro st auctionId bidderId amount now saveOk hv
    exact ⟨placeBidController_invalid hv, rfl⟩
  · intro st auctionId bidderId amount now saveOk hv hfind
    exact ⟨placeBidController_notFound hv hfind, rfl⟩

theorem auctionIt_C10_witness :
    (placeBidController demoStore "abc" "dddd" 12 50 true
        = (BidOutcome.invalidId, demoStore) ∧
      bidOutcomeResponse BidOutcome.invalidId
        = ⟨400, "Invalid auction ID", none, none, none⟩) ∧
    (placeBidController demoStore "ffffffffffffffffffffffff" "dddd" 12 50 true
        = (BidOutcome.notFound, demoStore) ∧
      bidOutcomeResponse BidOutcome.notFound
        = ⟨404, "Auction not found", none, none, none⟩) :=
  ⟨auctionIt_C10.1 demoStore "abc" "dddd" 12 50 true (by decide),
   auctionIt_C10.2 demoStore "ffffffffffffffffffffffff" "dddd" 12 50 true
     (by decide) (by decide)⟩
